import Mathlib

/-!
Verification development for the adaptive sampling probability processor
(`plugin/sampling/strategystore/adaptive/processor.go`).

Shallow embedding conventions:
* Go `float64` values are modelled as `ℚ`.
* Go `time.Duration` and `time.Time` are modelled as `Int` (nanoseconds).
* Go maps are modelled as association lists; lookups mirror the Go map reads.
* Fallible calls to external collaborators (storage, distributed lock) are
  modelled by passing their result (`Except Unit _`) into the function that
  performs the call.
* A Go runtime panic (out-of-range index) is modelled by returning `none`.
-/

set_option maxRecDepth 1000000

namespace Adaptive

/-- `time.Second` in nanoseconds (Go durations are int64 nanoseconds,
modelled as `Int`). -/
def second : Int := 1000000000

/-- `samplingstore.Throughput`: one raw store row. `Probabilities` is a set of
decimal strings of seen sampling rates, modelled as a list. -/
structure Throughput where
  service : String
  operation : String
  count : Int
  probabilities : List String
  deriving Repr, DecidableEq

/-- `serviceOperationThroughput`: `service → operation → *Throughput`. -/
abbrev ServiceOperationThroughput := List (String × List (String × Throughput))

/-- `throughputBucket`. -/
structure ThroughputBucket where
  throughput : ServiceOperationThroughput
  interval : Int
  endTime : Int
  deriving Repr, DecidableEq

/-- Modelled from the spec (§6 Processor configuration): the configuration
record consumed by `NewProcessor`; its own definition is not part of the
provided source file. `targetQPS` and `qpsEquivalenceThreshold` stand for the
runtime-adjustable `Mutable.GetTargetQPS()` / `Mutable.GetQPSEquivalenceThreshold()`. -/
structure ProcessorConfig where
  calculationInterval : Int
  lookbackInterval : Int
  lookbackQPSCount : Int
  delay : Int
  leaderLeaseRefreshInterval : Int
  followerLeaseRefreshInterval : Int
  minSamplingProbability : ℚ
  defaultSamplingProbability : ℚ
  lowerBoundTracesPerSecond : ℚ
  targetQPS : ℚ
  qpsEquivalenceThreshold : ℚ

/-- `sampling.SamplingStrategyType` (thrift-gen). -/
inductive SamplingStrategyType
  | probabilistic
  | rateLimiting
  deriving Repr, DecidableEq

/-- `sampling.ProbabilisticSamplingStrategy` (thrift-gen). -/
structure ProbabilisticSamplingStrategy where
  samplingRate : ℚ
  deriving Repr, DecidableEq

/-- `sampling.OperationSamplingStrategy` (thrift-gen). -/
structure OperationSamplingStrategy where
  operation : String
  probabilisticSampling : ProbabilisticSamplingStrategy
  deriving Repr, DecidableEq

/-- `sampling.PerOperationSamplingStrategies` (thrift-gen); a nil
`PerOperationStrategies` slice is modelled as `[]`. -/
structure PerOperationSamplingStrategies where
  defaultSamplingProbability : ℚ
  defaultLowerBoundTracesPerSecond : ℚ
  perOperationStrategies : List OperationSamplingStrategy
  deriving Repr, DecidableEq

/-- `sampling.SamplingStrategyResponse` (thrift-gen). -/
structure SamplingStrategyResponse where
  strategyType : SamplingStrategyType
  operationSampling : PerOperationSamplingStrategies
  deriving Repr, DecidableEq

/-- Modelled from the spec (§3 Sampling-status history): one
`samplingCacheEntry` of the adaptive package's cache file, which is not part
of the provided source: `{ probability, using_adaptive }`. -/
structure SamplingCacheEntry where
  probability : ℚ
  usingAdaptive : Bool
  deriving Repr, DecidableEq

/-- Modelled from the spec (§3): one `samplingCache` snapshot, a mapping
`(service, operation) → samplingCacheEntry`. -/
abbrev SamplingCache := List (String × List (String × SamplingCacheEntry))

instance : DecidableEq SamplingCache := fun a b => instDecidableEqList a b

/-- Nested two-level map read: `m[s][o]`, mirroring the Go comma-ok reads. -/
def lookup2 {α : Type} (m : List (String × List (String × α))) (s o : String) : Option α :=
  match m.lookup s with
  | some ops => ops.lookup o
  | none => none

/-- Association-list update `m[k] = v` (insert at the end when absent,
mirroring a Go map write observationally through `List.lookup`). -/
def updateAssoc {α : Type} (k : String) (v : α) : List (String × α) → List (String × α)
  | [] => [(k, v)]
  | (k', v') :: rest => if k == k' then (k, v) :: rest else (k', v') :: updateAssoc k v rest

/-- Nested two-level map write: `m[s][o] = v`, creating the inner map when
absent (as the Go code does before writing). -/
def set2 {α : Type} (m : List (String × List (String × α))) (s o : String) (v : α) :
    List (String × List (String × α)) :=
  match m.lookup s with
  | some ops => updateAssoc s (updateAssoc o v ops) m
  | none => updateAssoc s [(o, v)] m

/-- `maxSamplingProbability = 1.0`. -/
def maxSamplingProbability : ℚ := 1

/-- `serviceCacheSize = 25`. -/
def serviceCacheSize : Nat := 25

/-- `math.Abs`. -/
def mathAbs (a : ℚ) : ℚ := if a < 0 then -a else a

/-- `math.Min`. -/
def mathMin (a b : ℚ) : ℚ := if a ≤ b then a else b

/-- `math.Max`. -/
def mathMax (a b : ℚ) : ℚ := if a ≤ b then b else a

/-- `floatEquals(a, b)`: `math.Abs(a-b) < 0.0000000001`. -/
def floatEquals (a b : ℚ) : Bool :=
  decide (mathAbs (a - b) < 1 / 10000000000)

/-- Modelled from the spec (§9 Design notes): `truncateFloat`, defined in the
adaptive package outside the provided source, formats a probability truncated
to 4 decimal digits. -/
def truncateFloat (probability : ℚ) : String :=
  let scaled : Int := ⌊probability * 10000⌋
  let whole := scaled.tdiv 10000
  let frac := (scaled % 10000).toNat
  let fracStr := toString frac
  toString whole ++ "." ++ String.mk (List.replicate (4 - fracStr.length) '0') ++ fracStr

/-- Modelled from the spec (§4.3 Weights): the weights cache, defined outside
the provided source, returns for length `n` a normalized exponential-decay
vector, `w[0]` largest, summing to 1. Concrete base: `1/2`. -/
def getWeights (n : Nat) : List ℚ :=
  (List.range n).map (fun i => ((2 ^ (n - 1 - i) : Nat) : ℚ) / (((2 ^ n : Nat) : ℚ) - 1))

/-- Modelled from the spec (§4.3 Step 3): the
`calculationstrategy.PercentageIncreaseCappedCalculator` with cap
`percentageCap`, defined outside the provided source: a corrective
probability `old · target/qps`, with increases capped at `(1 + cap) · old`. -/
def percentageIncreaseCappedCalculate (percentageCap targetQPS curQPS oldProbability : ℚ) : ℚ :=
  let factor := targetQPS / curQPS
  let newProbability := oldProbability * factor
  if 1 < factor ∧ oldProbability * (1 + percentageCap) < newProbability then
    oldProbability * (1 + percentageCap)
  else newProbability

/-- The processor state: the fields of `processor` that the embedded
operations read or write. External collaborators (storage, lock, metrics,
logger) stay outside; their results are passed into each operation. -/
structure ProcState where
  config : ProcessorConfig
  leader : Bool
  buckets : Nat
  probabilities : List (String × List (String × ℚ))
  qps : List (String × List (String × ℚ))
  throughputs : List ThroughputBucket
  strategyResponses : List (String × SamplingStrategyResponse)
  serviceCache : List SamplingCache
  probabilityCalculator : ℚ → ℚ → ℚ → ℚ

/-- The construction-time validation errors of `NewProcessor`. -/
inductive ConfigError
  | errIntervals
  | errNonZeroIntervals
  | errLockIntervals
  | errLookbackQPSCount
  deriving Repr, DecidableEq

/-- `NewProcessor`: validates the configuration and builds the initial state;
`buckets = int(LookbackInterval / CalculationInterval)` (Go truncated
division). -/
def NewProcessor (config : ProcessorConfig) : Except ConfigError ProcState :=
  if config.lookbackInterval < config.calculationInterval then
    .error .errIntervals
  else if config.calculationInterval = 0 ∨ config.lookbackInterval = 0 then
    .error .errNonZeroIntervals
  else if config.followerLeaseRefreshInterval < config.leaderLeaseRefreshInterval then
    .error .errLockIntervals
  else if config.lookbackQPSCount < 1 then
    .error .errLookbackQPSCount
  else
    .ok {
      config := config
      leader := false
      buckets := (config.lookbackInterval.tdiv config.calculationInterval).toNat
      probabilities := []
      qps := []
      throughputs := []
      strategyResponses := []
      serviceCache := []
      probabilityCalculator := percentageIncreaseCappedCalculate 1 }

/-- `Except.isOk`. -/
def exceptIsOk {ε α : Type} : Except ε α → Bool
  | .ok _ => true
  | .error _ => false

/-- `generateDefaultSamplingStrategyResponse`. -/
def generateDefaultSamplingStrategyResponse (cfg : ProcessorConfig) : SamplingStrategyResponse :=
  { strategyType := .probabilistic
    operationSampling := {
      defaultSamplingProbability := cfg.defaultSamplingProbability
      defaultLowerBoundTracesPerSecond := cfg.lowerBoundTracesPerSecond
      perOperationStrategies := [] } }

/-- `GetSamplingStrategyResponses`: the cached response for the service, or a
freshly constructed default. -/
def GetSamplingStrategyResponses (p : ProcState) (service : String) : SamplingStrategyResponse :=
  match p.strategyResponses.lookup service with
  | some strategy => strategy
  | none => generateDefaultSamplingStrategyResponse p.config

/-- `loadProbabilities`: on store success replace the probabilities map with
the store's value, on store error leave the state unchanged. -/
def loadProbabilities (p : ProcState)
    (stored : Except Unit (List (String × List (String × ℚ)))) : ProcState :=
  match stored with
  | .error _ => p
  | .ok probabilities => { p with probabilities := probabilities }

/-- `acquireLock`: feed the result of `lock.Acquire(samplingLock)` into the
leader flag and return the updated state with the interval to sleep before
the next retry. -/
def acquireLock (p : ProcState) (result : Except Unit Bool) : ProcState × Int :=
  let p' := match result with
    | .ok acquiredLeaderLock => { p with leader := acquiredLeaderLock }
    | .error _ => p
  (p', if p'.leader then p'.config.leaderLeaseRefreshInterval
       else p'.config.followerLeaseRefreshInterval)

/-- `combineProbabilities`: set union of the seen-probability sets. -/
def combineProbabilities (p1 p2 : List String) : List String :=
  p2.foldl (fun acc probability => if acc.contains probability then acc else acc ++ [probability]) p1

/-- `aggregateThroughput`: upsert each raw row into
`service → operation → Throughput`; on collision sum `count` and union
`probabilities`. -/
def aggregateThroughput (throughputs : List Throughput) : ServiceOperationThroughput :=
  throughputs.foldl
    (fun acc t =>
      match lookup2 acc t.service t.operation with
      | some existing =>
          set2 acc t.service t.operation
            { existing with
              count := existing.count + t.count
              probabilities := combineProbabilities existing.probabilities t.probabilities }
      | none => set2 acc t.service t.operation t)
    []

/-- `prependThroughputBucket`: put the new bucket at the head and truncate the
ring to `buckets` entries. -/
def prependThroughputBucket (p : ProcState) (bucket : ThroughputBucket) : ProcState :=
  let ts := bucket :: p.throughputs
  { p with throughputs := if p.buckets < ts.length then ts.take p.buckets else ts }

/-- The recursion of `initializeThroughput`: walk backward for up to `n`
windows of `CalculationInterval`, appending a bucket per window; stop on a
store error or an empty result. -/
def initializeThroughputAux (cfg : ProcessorConfig)
    (fetch : Int → Int → Except Unit (List Throughput)) :
    Nat → Int → List ThroughputBucket → List ThroughputBucket
  | 0, _, acc => acc
  | Nat.succ n, endTime, acc =>
    let startTime := endTime - cfg.calculationInterval
    match fetch startTime endTime with
    | .error _ => acc
    | .ok throughput =>
      if throughput.isEmpty then acc
      else
        initializeThroughputAux cfg fetch n startTime
          (acc ++ [{ throughput := aggregateThroughput throughput
                     interval := cfg.calculationInterval
                     endTime := endTime }])

/-- `initializeThroughput`: the startup walk, `buckets` windows back from
`endTime`. -/
def initializeThroughput (p : ProcState)
    (fetch : Int → Int → Except Unit (List Throughput)) (endTime : Int) : ProcState :=
  { p with throughputs := initializeThroughputAux p.config fetch p.buckets endTime p.throughputs }

/-- `calculateQPS`: `count / interval_in_seconds`. -/
def calculateQPS (count : Int) (interval : Int) : ℚ :=
  (count : ℚ) / ((interval : ℚ) / (second : ℚ))

/-- `generateOperationQPS`: per `(service, operation)` the most recent up to
`LookbackQPSCount` per-bucket QPS samples, most recent first. -/
def generateOperationQPS (p : ProcState) : List (String × List (String × List ℚ)) :=
  p.throughputs.foldl
    (fun qps bucket =>
      bucket.throughput.foldl
        (fun qps svcOps =>
          svcOps.2.foldl
            (fun qps opT =>
              let cur := (lookup2 qps svcOps.1 opT.1).getD []
              if p.config.lookbackQPSCount ≤ (cur.length : Int) then qps
              else set2 qps svcOps.1 opT.1 (cur ++ [calculateQPS opT.2.count bucket.interval]))
            qps)
        qps)
    []

/-- `calculateWeightedQPS`: `Σ qps[i] · w[i]` with the cached weights, `0` for
an empty sample list. -/
def calculateWeightedQPS (allQPS : List ℚ) : ℚ :=
  if allQPS.length = 0 then 0
  else
    let weights := getWeights allQPS.length
    (allQPS.zip weights).foldl (fun acc qw => acc + qw.1 * qw.2) 0

/-- `prependServiceCache`: push a fresh empty snapshot, truncate the history
to `serviceCacheSize`. -/
def prependServiceCache (serviceCache : List SamplingCache) : List SamplingCache :=
  (([] : SamplingCache) :: serviceCache).take serviceCacheSize

/-- `p.serviceCache[0].Set(service, operation, entry)`; `none` models the Go
index-out-of-range panic on an empty history. -/
def setServiceCacheHead (serviceCache : List SamplingCache) (s o : String)
    (e : SamplingCacheEntry) : Option (List SamplingCache) :=
  match serviceCache with
  | [] => none
  | c :: rest => some (set2 c s o e :: rest)

/-- `usingAdaptiveSampling`: clause 1 default-probability test, clause 2
membership of the truncated probability in the latest bucket's seen set,
clause 3 the previous sampling-status snapshot, else false. -/
def usingAdaptiveSampling (cfg : ProcessorConfig) (probability : ℚ) (service operation : String)
    (throughput : ServiceOperationThroughput) (serviceCache : List SamplingCache) : Bool :=
  if floatEquals probability cfg.defaultSamplingProbability then true
  else
    match lookup2 throughput service operation with
    | some opThroughput => opThroughput.probabilities.contains (truncateFloat probability)
    | none =>
      match serviceCache with
      | _ :: prev :: _ =>
        match lookup2 prev service operation with
        | some e => e.usingAdaptive && decide (e.probability ≠ cfg.defaultSamplingProbability)
        | none => false
      | _ => false

/-- The old probability read at the start of `calculateProbability`: the
current map value, or `DefaultSamplingProbability` when absent. -/
def oldProbability (p : ProcState) (service operation : String) : ℚ :=
  match lookup2 p.probabilities service operation with
  | some probability => probability
  | none => p.config.defaultSamplingProbability

/-- `calculateProbability`: reads `p.throughputs[0]` (hence `none` on an empty
ring, modelling the panic), records the status snapshot entry into the
threaded sampling-status history, then applies the adjustment policy with the
final clamp into `[MinSamplingProbability, maxSamplingProbability]`. -/
def calculateProbability (p : ProcState) (serviceCache : List SamplingCache)
    (service operation : String) (qps : ℚ) : Option (ℚ × List SamplingCache) :=
  let oldProb := oldProbability p service operation
  match p.throughputs with
  | [] => none
  | latest :: _ =>
    let adaptive := usingAdaptiveSampling p.config oldProb service operation
      latest.throughput serviceCache
    match setServiceCacheHead serviceCache service operation
        { probability := oldProb, usingAdaptive := adaptive } with
    | none => none
    | some newCache =>
      let targetQPS := p.config.targetQPS
      if mathAbs (qps - targetQPS) < p.config.qpsEquivalenceThreshold ∨ adaptive = false then
        some (oldProb, newCache)
      else
        let newProbability :=
          if floatEquals qps 0 then oldProb * 2
          else p.probabilityCalculator targetQPS qps oldProb
        some (mathMin maxSamplingProbability (mathMax p.config.minSamplingProbability newProbability),
          newCache)

/-- The inner loop of `calculateProbabilitiesAndQPS` over one service's
operations, threading the result maps and the sampling-status history;
`none` propagates a panic from `calculateProbability`. -/
def calcOpsAux (p : ProcState) (svc : String) :
    List (String × List ℚ) →
    (List (String × List (String × ℚ)) × List (String × List (String × ℚ)) × List SamplingCache) →
    Option (List (String × List (String × ℚ)) × List (String × List (String × ℚ)) × List SamplingCache)
  | [], acc => some acc
  | opQPS :: rest, (retProbabilities, retQPS, serviceCache) =>
    let avgQPS := calculateWeightedQPS opQPS.2
    match calculateProbability p serviceCache svc opQPS.1 avgQPS with
    | none => none
    | some (probability, serviceCache') =>
      calcOpsAux p svc rest
        (set2 retProbabilities svc opQPS.1 probability,
         set2 retQPS svc opQPS.1 avgQPS,
         serviceCache')

/-- The outer loop of `calculateProbabilitiesAndQPS` over services. -/
def calcSvcsAux (p : ProcState) :
    List (String × List (String × List ℚ)) →
    (List (String × List (String × ℚ)) × List (String × List (String × ℚ)) × List SamplingCache) →
    Option (List (String × List (String × ℚ)) × List (String × List (String × ℚ)) × List SamplingCache)
  | [], acc => some acc
  | svcOps :: rest, acc =>
    match calcOpsAux p svcOps.1 svcOps.2 acc with
    | none => none
    | some acc' => calcSvcsAux p rest acc'

/-- `calculateProbabilitiesAndQPS`: prepend a fresh status snapshot, derive
the per-operation QPS samples, and fold the adjustment policy over every
`(service, operation)`; returns the new probabilities map, QPS map and the
updated sampling-status history. -/
def calculateProbabilitiesAndQPS (p : ProcState) :
    Option (List (String × List (String × ℚ)) × List (String × List (String × ℚ)) × List SamplingCache) :=
  calcSvcsAux p (generateOperationQPS p) ([], [], prependServiceCache p.serviceCache)

/-- `generateStrategyResponses`: rebuild the per-service strategy cache from
the probabilities map. -/
def generateStrategyResponses (p : ProcState) : ProcState :=
  let build := fun (svcProbs : String × List (String × ℚ)) =>
    let base := generateDefaultSamplingStrategyResponse p.config
    let opStrategies := svcProbs.2.map (fun opProb =>
      { operation := opProb.1
        probabilisticSampling := { samplingRate := opProb.2 } : OperationSamplingStrategy })
    let newOperationSampling :=
      { base.operationSampling with perOperationStrategies := opStrategies }
    (svcProbs.1, { base with operationSampling := newOperationSampling })
  { p with strategyResponses := p.probabilities.map build }

/-- One tick of `runCalculationLoop`: on a store error the state is
unchanged; otherwise aggregate and prepend the bucket, and — only when the
leader flag is set — recompute the probabilities and QPS, install them and
regenerate the strategy responses. `none` models a panic inside the
calculation. -/
def runCalculationTick (p : ProcState) (fetchResult : Except Unit (List Throughput))
    (startTime endTime : Int) : Option ProcState :=
  match fetchResult with
  | .error _ => some p
  | .ok throughput =>
    let aggregatedThroughput := aggregateThroughput throughput
    let p := prependThroughputBucket p
      { throughput := aggregatedThroughput
        interval := endTime - startTime
        endTime := endTime }
    if p.leader then
      match calculateProbabilitiesAndQPS p with
      | none => none
      | some (probabilities, qps, serviceCache) =>
        some (generateStrategyResponses
          { p with probabilities := probabilities, qps := qps, serviceCache := serviceCache })
    else some p

/-! Scenario S1 (claim C1): target QPS 1.0, MinSamplingProbability 0.001,
DefaultSamplingProbability 0.001, CalculationInterval 1s, LookbackInterval 2s,
LookbackQPSCount 2; each tick's bucket holds exactly the row
`{service = A, operation = x, count = 0}`. The equivalence threshold is the
store default 0.3 (any value ≤ 1 behaves identically here). -/

/-- The S1 configuration. -/
def s1Config : ProcessorConfig :=
  { calculationInterval := second
    lookbackInterval := 2 * second
    lookbackQPSCount := 2
    delay := 0
    leaderLeaseRefreshInterval := 5 * second
    followerLeaseRefreshInterval := 60 * second
    minSamplingProbability := 1 / 1000
    defaultSamplingProbability := 1 / 1000
    lowerBoundTracesPerSecond := 0
    targetQPS := 1
    qpsEquivalenceThreshold := 3 / 10 }

/-- The S1 throughput row, repeated on every tick. -/
def s1Row : Throughput :=
  { service := "A", operation := "x", count := 0, probabilities := [] }

/-- The S1 initial processor: the `NewProcessor` state for `s1Config` with
the leader flag set (the scenario runs leader calculation ticks). -/
def s1Initial : ProcState :=
  { config := s1Config
    leader := true
    buckets := (s1Config.lookbackInterval.tdiv s1Config.calculationInterval).toNat
    probabilities := []
    qps := []
    throughputs := []
    strategyResponses := []
    serviceCache := []
    probabilityCalculator := percentageIncreaseCappedCalculate 1 }

/-- Run `n` S1 calculation ticks (tick `k` covers `[k·s, (k+1)·s)`). -/
def s1Run : Nat → Option ProcState
  | 0 => some s1Initial
  | Nat.succ n =>
    match s1Run n with
    | none => none
    | some p => runCalculationTick p (.ok [s1Row]) (n * second) ((n + 1) * second)

/-- The published probability for `(A, x)` after `n` S1 ticks. -/
def s1Probability (n : Nat) : Option ℚ :=
  match s1Run n with
  | none => none
  | some p => lookup2 p.probabilities "A" "x"

/-- The most recent sampling-status snapshot entry for `(A, x)` after `n` S1
ticks. -/
def s1Snapshot (n : Nat) : Option SamplingCacheEntry :=
  match s1Run n with
  | none => none
  | some p =>
    match p.serviceCache with
    | c :: _ => lookup2 c "A" "x"
    | [] => none

/-- A bare processor state over a given configuration (used to instantiate
theorems at concrete inputs). -/
def baseState (cfg : ProcessorConfig) : ProcState :=
  { config := cfg
    leader := false
    buckets := 1
    probabilities := []
    qps := []
    throughputs := []
    strategyResponses := []
    serviceCache := []
    probabilityCalculator := percentageIncreaseCappedCalculate 1 }

/-- The state `NewProcessor s1Config` constructs. -/
def s1NewState : ProcState :=
  { config := s1Config
    leader := false
    buckets := (s1Config.lookbackInterval.tdiv s1Config.calculationInterval).toNat
    probabilities := []
    qps := []
    throughputs := []
    strategyResponses := []
    serviceCache := []
    probabilityCalculator := percentageIncreaseCappedCalculate 1 }

/-- A previous sampling-status snapshot recording `(A, x)` as adaptive with
probability `1/2`. -/
def c3PrevSnapshot : SamplingCache :=
  [("A", [("x", { probability := 1 / 2, usingAdaptive := true })])]

/-- A sampling-status history whose previous snapshot records for `(A, x)` a
probability within `1e-10` of the default (`0.001 + 1e-12`) with the adaptive
flag set. -/
def c3Cache : List SamplingCache :=
  [[], [("A", [("x", { probability := 1 / 1000 + 1 / 1000000000000, usingAdaptive := true })])]]

/-- A processor that currently holds the leader lock. -/
def c4State : ProcState := { baseState s1Config with leader := true }

/-- A configuration with `CalculationInterval = LookbackInterval` (and the
other fields valid). -/
def c5Config : ProcessorConfig := { s1Config with lookbackInterval := second }

/-- A one-bucket ring whose latest bucket records `(A, x)` with the seen
probability string of `3/4`, used to drive the non-short-circuit calculator
branch. -/
def cwBucket : ThroughputBucket :=
  { throughput := [("A", [("x",
      { service := "A", operation := "x", count := 5, probabilities := ["0.7500"] })])]
    interval := second
    endTime := second }

/-- A processor with one stored probability `3/4` for `(A, x)`, a target QPS
of 1 and equivalence threshold `0.01`, min probability `0.1`. -/
def cwState : ProcState :=
  { config := { s1Config with
      minSamplingProbability := 1 / 10
      defaultSamplingProbability := 1 / 2
      qpsEquivalenceThreshold := 1 / 100 }
    leader := true
    buckets := 2
    probabilities := [("A", [("x", 3 / 4)])]
    qps := []
    throughputs := [cwBucket]
    strategyResponses := []
    serviceCache := [[]]
    probabilityCalculator := percentageIncreaseCappedCalculate 1 }

/-- A processor matching scenario S3: stored probability `0.3` for `(A, x)`,
target 1, threshold `0.01`. -/
def s3State : ProcState :=
  { cwState with probabilities := [("A", [("x", 3 / 10)])] }

/-- The ring order invariant: head is most recent by `end_time`. -/
abbrev mostRecentFirst (l : List ThroughputBucket) : Prop :=
  l.Pairwise (fun a b => b.endTime ≤ a.endTime)

/-! ## Theorems -/

/-- C5 counterexample: a configuration with
`CalculationInterval = LookbackInterval` (both one second) is accepted by
`NewProcessor`, although the claim requires
`CalculationInterval < LookbackInterval` strictly. -/
theorem newProcessor_accepts_equal_intervals :
    exceptIsOk (NewProcessor c5Config) = true ∧
    ¬(c5Config.calculationInterval < c5Config.lookbackInterval) := by
  with_unfolding_all decide

/-- C5 (amended): `NewProcessor` returns an error exactly when
`LookbackInterval < CalculationInterval`, or one of the two intervals is zero,
or `FollowerLeaseRefreshInterval < LeaderLeaseRefreshInterval`, or
`LookbackQPSCount < 1`; equality of the two intervals is accepted, and only
nonzeroness (not positivity) is checked. -/
theorem newProcessor_ok_iff (config : ProcessorConfig) :
    exceptIsOk (NewProcessor config) = true ↔
      (config.calculationInterval ≤ config.lookbackInterval ∧
       config.calculationInterval ≠ 0 ∧
       config.lookbackInterval ≠ 0 ∧
       config.leaderLeaseRefreshInterval ≤ config.followerLeaseRefreshInterval ∧
       1 ≤ config.lookbackQPSCount) := by
  unfold NewProcessor
  split_ifs with h1 h2 h3 h4 <;> simp [exceptIsOk] <;> omega

/-- C4 counterexample: when the processor already holds the leader lock and
`Acquire` returns an error, `acquireLock` returns
`LeaderLeaseRefreshInterval`, not `FollowerLeaseRefreshInterval` as the claim
states (the two differ in this configuration). -/
theorem acquireLock_error_keeps_leader_cadence :
    (acquireLock c4State (.error ())).1.leader = true ∧
    (acquireLock c4State (.error ())).2 = s1Config.leaderLeaseRefreshInterval ∧
    s1Config.leaderLeaseRefreshInterval ≠ s1Config.followerLeaseRefreshInterval := by
  with_unfolding_all decide

/-- C4 (amended): on success with `true` the leader flag is set and the sleep
is `LeaderLeaseRefreshInterval`; on success with `false` the flag is cleared
and the sleep is `FollowerLeaseRefreshInterval`; on error the flag is
unchanged and the sleep is `LeaderLeaseRefreshInterval` when the flag is
(still) true, `FollowerLeaseRefreshInterval` otherwise. -/
theorem acquireLock_cases (p : ProcState) (result : Except Unit Bool) :
    (∀ b, result = .ok b →
      (acquireLock p result).1.leader = b ∧
      (acquireLock p result).2 =
        (if b then p.config.leaderLeaseRefreshInterval
         else p.config.followerLeaseRefreshInterval)) ∧
    (∀ e, result = .error e →
      (acquireLock p result).1.leader = p.leader ∧
      (acquireLock p result).2 =
        (if p.leader then p.config.leaderLeaseRefreshInterval
         else p.config.followerLeaseRefreshInterval)) := by
  constructor
  · rintro b rfl
    simp [acquireLock]
  · rintro e rfl
    simp [acquireLock]

/-- C4 witness: the amended theorem applied to a concrete leader state and a
failing lock call. -/
theorem acquireLock_cases_witness :
    (acquireLock c4State (.error ())).1.leader = c4State.leader ∧
    (acquireLock c4State (.error ())).2 = c4State.config.leaderLeaseRefreshInterval := by
  have h := (acquireLock_cases c4State (.error ())).2 () rfl
  exact ⟨h.1, by rw [h.2]; rfl⟩

/-- C9: `GetSamplingStrategyResponses` returns the cached response when one
exists for the service, and otherwise a freshly constructed default response
with strategy type PROBABILISTIC, the configured default probability and
lower bound, and no per-operation overrides. -/
theorem getSamplingStrategyResponses_cached_or_default (p : ProcState) (service : String) :
    (∀ r, p.strategyResponses.lookup service = some r →
      GetSamplingStrategyResponses p service = r) ∧
    (p.strategyResponses.lookup service = none →
      GetSamplingStrategyResponses p service =
        { strategyType := .probabilistic
          operationSampling := {
            defaultSamplingProbability := p.config.defaultSamplingProbability
            defaultLowerBoundTracesPerSecond := p.config.lowerBoundTracesPerSecond
            perOperationStrategies := [] } }) := by
  constructor
  · intro r h
    simp [GetSamplingStrategyResponses, h]
  · intro h
    simp [GetSamplingStrategyResponses, h, generateDefaultSamplingStrategyResponse]

/-- C9 witness: on a state with an empty cache the default response is
returned. -/
theorem getSamplingStrategyResponses_witness :
    GetSamplingStrategyResponses (baseState s1Config) "svcA" =
      { strategyType := .probabilistic
        operationSampling := {
          defaultSamplingProbability := (baseState s1Config).config.defaultSamplingProbability
          defaultLowerBoundTracesPerSecond := (baseState s1Config).config.lowerBoundTracesPerSecond
          perOperationStrategies := [] } } :=
  (getSamplingStrategyResponses_cached_or_default (baseState s1Config) "svcA").2 rfl

/-- C7: whenever `|qps - target_qps|` is below the equivalence threshold,
`calculateProbability` returns the old probability unchanged, regardless of
the operation's adaptive status. -/
theorem calculateProbability_equivalence_short_circuit (p : ProcState)
    (serviceCache : List SamplingCache) (service operation : String) (qps : ℚ)
    (latest : ThroughputBucket) (rest : List ThroughputBucket)
    (ht : p.throughputs = latest :: rest) (hc : serviceCache ≠ [])
    (hnear : mathAbs (qps - p.config.targetQPS) < p.config.qpsEquivalenceThreshold) :
    ∃ newCache, calculateProbability p serviceCache service operation qps =
      some (oldProbability p service operation, newCache) := by
  rcases serviceCache with _ | ⟨c, cs⟩
  · exact absurd rfl hc
  · unfold calculateProbability
    rw [ht]
    simp only [setServiceCacheHead]
    rw [if_pos (Or.inl hnear)]
    exact ⟨_, rfl⟩

/-- C7 witness: scenario S3 — old `0.3`, qps `1.005`, target `1`, threshold
`0.01`; the result is exactly `0.3`. -/
theorem calculateProbability_equivalence_short_circuit_witness :
    (∃ newCache, calculateProbability s3State [[]] "A" "x" (201 / 200) =
      some (oldProbability s3State "A" "x", newCache)) ∧
    oldProbability s3State "A" "x" = 3 / 10 :=
  ⟨calculateProbability_equivalence_short_circuit s3State [[]] "A" "x" (201 / 200)
      cwBucket [] rfl (by simp) (by with_unfolding_all decide),
   by with_unfolding_all decide⟩

/-- C6: for an adaptive operation whose weighted QPS is zero within the
`1e-10` tolerance and outside the equivalence threshold of the target,
`calculateProbability` returns
`min(1, max(MinSamplingProbability, 2 · old_probability))`. -/
theorem calculateProbability_zero_qps_doubles (p : ProcState)
    (serviceCache : List SamplingCache) (service operation : String) (qps : ℚ)
    (latest : ThroughputBucket) (rest : List ThroughputBucket)
    (ht : p.throughputs = latest :: rest) (hc : serviceCache ≠ [])
    (hA : usingAdaptiveSampling p.config (oldProbability p service operation)
        service operation latest.throughput serviceCache = true)
    (h0 : floatEquals qps 0 = true)
    (hfar : ¬ mathAbs (qps - p.config.targetQPS) < p.config.qpsEquivalenceThreshold) :
    ∃ newCache, calculateProbability p serviceCache service operation qps =
      some (mathMin maxSamplingProbability
        (mathMax p.config.minSamplingProbability (2 * oldProbability p service operation)),
        newCache) := by
  rcases serviceCache with _ | ⟨c, cs⟩
  · exact absurd rfl hc
  · unfold calculateProbability
    rw [ht]
    simp only [setServiceCacheHead]
    rw [if_neg (by
      rintro (h | h)
      · exact hfar h
      · rw [hA] at h
        exact Bool.noConfusion h)]
    rw [if_pos h0]
    rw [mul_comm 2 (oldProbability p service operation)]
    exact ⟨_, rfl⟩

/-- C6 witness: on `cwState` (old probability `3/4`, classified adaptive via
the seen-probabilities membership) with qps `0`, the result is the clamped
doubled probability. -/
theorem calculateProbability_zero_qps_doubles_witness :
    ∃ newCache, calculateProbability cwState [[]] "A" "x" 0 =
      some (mathMin maxSamplingProbability
        (mathMax cwState.config.minSamplingProbability (2 * oldProbability cwState "A" "x")),
        newCache) :=
  calculateProbability_zero_qps_doubles cwState [[]] "A" "x" 0 cwBucket [] rfl
    (by simp) (by with_unfolding_all decide) (by with_unfolding_all decide)
    (by with_unfolding_all decide)

/-- Clamp bounds: `min(1, max(minP, x))` lies in `[minP, 1]` when
`minP ≤ 1`. -/
theorem clamp_within_bounds (minP x : ℚ) (h : minP ≤ 1) :
    minP ≤ mathMin maxSamplingProbability (mathMax minP x) ∧
    mathMin maxSamplingProbability (mathMax minP x) ≤ 1 := by
  unfold maxSamplingProbability mathMin mathMax
  split_ifs <;> constructor <;> linarith

/-- C2 (amended): every value returned by `calculateProbability` lies in
`[MinSamplingProbability, 1]` provided the old probability it reads (stored
value or default) lies in those bounds and `MinSamplingProbability ≤ 1`; the
clamped branch needs no assumption on the calculator output. (The original
claim fails at `loadProbabilities`, which installs store values without
clamping.) -/
theorem calculateProbability_within_bounds (p : ProcState) (serviceCache : List SamplingCache)
    (service operation : String) (qps v : ℚ) (newCache : List SamplingCache)
    (hMin : p.config.minSamplingProbability ≤ 1)
    (hlo : p.config.minSamplingProbability ≤ oldProbability p service operation)
    (hhi : oldProbability p service operation ≤ 1)
    (hres : calculateProbability p serviceCache service operation qps = some (v, newCache)) :
    p.config.minSamplingProbability ≤ v ∧ v ≤ 1 := by
  rcases hts : p.throughputs with _ | ⟨latest, rest⟩
  · unfold calculateProbability at hres
    rw [hts] at hres
    exact absurd hres (by simp)
  · rcases serviceCache with _ | ⟨c, cs⟩
    · unfold calculateProbability at hres
      rw [hts] at hres
      exact absurd hres (by simp [setServiceCacheHead])
    · unfold calculateProbability at hres
      rw [hts] at hres
      simp only [setServiceCacheHead] at hres
      split at hres
      · simp only [Option.some.injEq, Prod.mk.injEq] at hres
        obtain ⟨rfl, -⟩ := hres
        exact ⟨hlo, hhi⟩
      · split at hres <;>
          simp only [Option.some.injEq, Prod.mk.injEq] at hres <;>
          obtain ⟨rfl, -⟩ := hres <;>
          exact clamp_within_bounds _ _ hMin

/-- C2 counterexample: `loadProbabilities` installs the store value `2.0`
unchanged, violating the claimed `≤ 1.0` bound (the configured bounds here
are `[0.001, 1]`). -/
theorem loadProbabilities_installs_unclamped_value :
    lookup2 (loadProbabilities (baseState s1Config)
        (.ok [("A", [("x", (2 : ℚ))])])).probabilities "A" "x" = some 2 ∧
    ¬((2 : ℚ) ≤ maxSamplingProbability) := by
  with_unfolding_all decide

/-- C2 witness: on `cwState` (bounds `[1/10, 1]`, old probability `3/4`) with
qps `5`, the returned value `3/20` is within bounds. -/
theorem calculateProbability_within_bounds_witness :
    cwState.config.minSamplingProbability ≤ 3 / 20 ∧ (3 / 20 : ℚ) ≤ 1 :=
  calculateProbability_within_bounds cwState [[]] "A" "x" 5 (3 / 20)
    [[("A", [("x", { probability := 3 / 4, usingAdaptive := true })])]]
    (by with_unfolding_all decide) (by with_unfolding_all decide)
    (by with_unfolding_all decide) (by with_unfolding_all decide)

/-- C3 (amended): under the claim's preconditions (old probability not within
`1e-10` of the default, no throughput entry in the most recent bucket), the
operation is classified adaptive iff the previous snapshot has an entry for
the `(service, operation)` whose adaptive flag is true and whose recorded
probability differs from `DefaultSamplingProbability` under **exact**
comparison — not under the `1e-10` tolerance the claim states. -/
theorem usingAdaptiveSampling_history_clause (cfg : ProcessorConfig) (probability : ℚ)
    (service operation : String) (throughput : ServiceOperationThroughput)
    (c0 prev : SamplingCache) (rest : List SamplingCache)
    (hne : floatEquals probability cfg.defaultSamplingProbability = false)
    (hno : lookup2 throughput service operation = none) :
    (usingAdaptiveSampling cfg probability service operation throughput (c0 :: prev :: rest) = true
      ↔ ∃ e, lookup2 prev service operation = some e ∧ e.usingAdaptive = true ∧
          e.probability ≠ cfg.defaultSamplingProbability) := by
  unfold usingAdaptiveSampling
  rw [hno]
  simp only [hne, Bool.false_eq_true, if_false]
  cases h : lookup2 prev service operation with
  | none => simp
  | some e => simp [Bool.and_eq_true, decide_eq_true_eq]

/-- C3 counterexample: with a previous snapshot whose recorded probability is
`0.001 + 1e-12` — within the `1e-10` tolerance of the default `0.001`, hence
"not differing" per the claim — the code still classifies the operation
adaptive, because it compares with exact inequality. -/
theorem usingAdaptiveSampling_exact_comparison_counterexample :
    usingAdaptiveSampling s1Config (1 / 2) "A" "x" [] c3Cache = true ∧
    floatEquals (1 / 1000 + 1 / 1000000000000) s1Config.defaultSamplingProbability = true := by
  with_unfolding_all decide

/-- C3 witness: the amended theorem applied at a concrete previous snapshot
recording `(A, x)` adaptive with probability `1/2`. -/
theorem usingAdaptiveSampling_history_clause_witness :
    usingAdaptiveSampling s1Config (1 / 2) "A" "x" [] ([] :: c3PrevSnapshot :: []) = true
      ↔ ∃ e, lookup2 c3PrevSnapshot "A" "x" = some e ∧ e.usingAdaptive = true ∧
          e.probability ≠ s1Config.defaultSamplingProbability :=
  usingAdaptiveSampling_history_clause s1Config (1 / 2) "A" "x" [] [] c3PrevSnapshot []
    (by with_unfolding_all decide) rfl

/-- C1 counterexample: in scenario S1 the published probability for `(A, x)`
after the second tick is `0.002` (= `1/500`), not the `0.004` (= `1/250`) the
claim states. -/
theorem s1_tick2_not_redoubled :
    s1Probability 2 = some (1 / 500) ∧ (1 / 500 : ℚ) ≠ 1 / 250 := by
  with_unfolding_all decide

/-- C1 (amended): in scenario S1 the published probability for `(A, x)` is
`0.002` after the first tick (doubled from the default, the operation being
classified adaptive by Step 4 clause 1, as the snapshot entry records), and
remains `0.002` after the second and third ticks: since the most recent
bucket contains a throughput row for `(A, x)` whose seen-probabilities set is
empty, Step 4 clause 2 classifies the operation as not adaptive and the old
probability is returned unchanged. -/
theorem s1_probability_doubles_once_then_holds :
    s1Probability 1 = some (1 / 500) ∧
    s1Probability 2 = some (1 / 500) ∧
    s1Probability 3 = some (1 / 500) ∧
    s1Snapshot 1 = some { probability := 1 / 1000, usingAdaptive := true } ∧
    s1Snapshot 2 = some { probability := 1 / 500, usingAdaptive := false } := by
  with_unfolding_all decide

/-- Length bound of the startup walk: at most `n` buckets are appended. -/
theorem initializeThroughputAux_length (cfg : ProcessorConfig)
    (fetch : Int → Int → Except Unit (List Throughput)) (n : Nat) :
    ∀ (endTime : Int) (acc : List ThroughputBucket),
      (initializeThroughputAux cfg fetch n endTime acc).length ≤ acc.length + n := by
  induction n with
  | zero =>
    intro endTime acc
    simp [initializeThroughputAux]
  | succ n ih =>
    intro endTime acc
    unfold initializeThroughputAux
    simp only []
    cases hf : fetch (endTime - cfg.calculationInterval) endTime with
    | error e =>
      dsimp only
      omega
    | ok throughput =>
      dsimp only
      split_ifs with he
      · omega
      · have h := ih (endTime - cfg.calculationInterval)
          (acc ++ [{ throughput := aggregateThroughput throughput
                     interval := cfg.calculationInterval
                     endTime := endTime }])
        simp only [List.length_append, List.length_singleton] at h
        omega

/-- Order invariant of the startup walk: walking backward in time keeps the
accumulated buckets most recent first. -/
theorem initializeThroughputAux_sorted (cfg : ProcessorConfig)
    (fetch : Int → Int → Except Unit (List Throughput))
    (hcalc : 0 ≤ cfg.calculationInterval) (n : Nat) :
    ∀ (endTime : Int) (acc : List ThroughputBucket),
      mostRecentFirst acc → (∀ b ∈ acc, endTime ≤ b.endTime) →
      mostRecentFirst (initializeThroughputAux cfg fetch n endTime acc) := by
  induction n with
  | zero =>
    intro endTime acc hs _
    simpa [initializeThroughputAux] using hs
  | succ n ih =>
    intro endTime acc hs hle
    unfold initializeThroughputAux
    simp only []
    cases hf : fetch (endTime - cfg.calculationInterval) endTime with
    | error e =>
      exact hs
    | ok throughput =>
      dsimp only
      split_ifs with he
      · exact hs
      · apply ih
        · refine List.pairwise_append.mpr ⟨hs, List.pairwise_singleton _ _, ?_⟩
          intro a ha b hb
          simp at hb
          subst hb
          exact hle a ha
        · intro b hb
          simp at hb
          rcases hb with hb | hb
          · have := hle b hb
            omega
          · rw [hb]
            simp
            omega

/-- C8: after a `prependThroughputBucket` call the ring holds at most
`buckets` entries and, when the inserted bucket is at least as recent as the
existing ones, stays ordered most recent first by `end_time` (the tail being
discarded on overflow); the startup `initializeThroughput` walk likewise
produces at most `buckets` entries, ordered most recent first. -/
theorem throughput_ring_discipline :
    (∀ (p : ProcState) (bucket : ThroughputBucket),
       (prependThroughputBucket p bucket).throughputs.length ≤ p.buckets) ∧
    (∀ (p : ProcState) (bucket : ThroughputBucket),
       mostRecentFirst p.throughputs →
       (∀ b ∈ p.throughputs, b.endTime ≤ bucket.endTime) →
       mostRecentFirst (prependThroughputBucket p bucket).throughputs) ∧
    (∀ (p : ProcState) (fetch : Int → Int → Except Unit (List Throughput)) (endTime : Int),
       p.throughputs = [] →
       (initializeThroughput p fetch endTime).throughputs.length ≤ p.buckets) ∧
    (∀ (p : ProcState) (fetch : Int → Int → Except Unit (List Throughput)) (endTime : Int),
       p.throughputs = [] → 0 ≤ p.config.calculationInterval →
       mostRecentFirst (initializeThroughput p fetch endTime).throughputs) := by
  refine ⟨?_, ?_, ?_, ?_⟩
  · intro p bucket
    unfold prependThroughputBucket
    dsimp only
    split_ifs with h
    · rw [List.length_take]
      omega
    · simp only [List.length_cons] at h ⊢
      omega
  · intro p bucket hs hle
    have hp : mostRecentFirst (bucket :: p.throughputs) :=
      List.pairwise_cons.mpr ⟨fun b hb => hle b hb, hs⟩
    unfold prependThroughputBucket
    dsimp only
    split_ifs with h
    · exact hp.sublist (List.take_sublist _ _)
    · exact hp
  · intro p fetch endTime hempty
    unfold initializeThroughput
    have h := initializeThroughputAux_length p.config fetch p.buckets endTime p.throughputs
    rw [hempty] at h ⊢
    simpa using h
  · intro p fetch endTime hempty hcalc
    unfold initializeThroughput
    rw [hempty]
    exact initializeThroughputAux_sorted p.config fetch hcalc p.buckets endTime []
      List.Pairwise.nil (by simp)

/-- C8 witness: the ring discipline at concrete states — a prepend on a
one-bucket ring, a prepend on the empty ring, and the startup walk with a
failing store. -/
theorem throughput_ring_discipline_witness :
    (prependThroughputBucket cwState cwBucket).throughputs.length ≤ cwState.buckets ∧
    mostRecentFirst (prependThroughputBucket (baseState s1Config) cwBucket).throughputs ∧
    (initializeThroughput (baseState s1Config) (fun _ _ => .error ()) 0).throughputs.length ≤
      (baseState s1Config).buckets ∧
    mostRecentFirst (initializeThroughput (baseState s1Config) (fun _ _ => .error ()) 0).throughputs :=
  ⟨throughput_ring_discipline.1 cwState cwBucket,
   throughput_ring_discipline.2.1 (baseState s1Config) cwBucket List.Pairwise.nil
     (by simp [baseState]),
   throughput_ring_discipline.2.2.1 (baseState s1Config) (fun _ _ => .error ()) 0 rfl,
   throughput_ring_discipline.2.2.2 (baseState s1Config) (fun _ _ => .error ()) 0 rfl (by decide)⟩

/-- `calculateProbability` succeeds (no panic) whenever the ring and the
sampling-status history are nonempty, and the history it returns is again
nonempty. -/
theorem calculateProbability_isSome (p : ProcState) (c : SamplingCache)
    (cs : List SamplingCache) (service operation : String) (q : ℚ)
    (latest : ThroughputBucket) (rest : List ThroughputBucket)
    (ht : p.throughputs = latest :: rest) :
    ∃ v cache', calculateProbability p (c :: cs) service operation q = some (v, cache') ∧
      cache' ≠ [] := by
  unfold calculateProbability
  rw [ht]
  simp only [setServiceCacheHead]
  split
  · exact ⟨_, _, rfl, by simp⟩
  · exact ⟨_, _, rfl, by simp⟩

/-- The per-service loop of the probability calculation never panics when the
ring is nonempty and the threaded history is nonempty. -/
theorem calcOpsAux_isSome (p : ProcState)
    (latest : ThroughputBucket) (rest : List ThroughputBucket)
    (ht : p.throughputs = latest :: rest) (svc : String) :
    ∀ (ops : List (String × List ℚ))
      (retP retQ : List (String × List (String × ℚ)))
      (c : SamplingCache) (cs : List SamplingCache),
      ∃ r, calcOpsAux p svc ops (retP, retQ, c :: cs) = some r ∧ r.2.2 ≠ [] := by
  intro ops
  induction ops with
  | nil =>
    intro retP retQ c cs
    exact ⟨(retP, retQ, c :: cs), rfl, by simp⟩
  | cons head tail ih =>
    intro retP retQ c cs
    obtain ⟨v, cache', heq, hne⟩ :=
      calculateProbability_isSome p c cs svc head.1 (calculateWeightedQPS head.2) latest rest ht
    rcases cache' with _ | ⟨c', cs'⟩
    · exact absurd rfl hne
    · obtain ⟨r, hr, hrne⟩ := ih (set2 retP svc head.1 v)
        (set2 retQ svc head.1 (calculateWeightedQPS head.2)) c' cs'
      refine ⟨r, ?_, hrne⟩
      unfold calcOpsAux
      simp only []
      rw [heq]
      exact hr

/-- The outer loop of the probability calculation never panics when the ring
is nonempty and the threaded history is nonempty. -/
theorem calcSvcsAux_isSome (p : ProcState)
    (latest : ThroughputBucket) (rest : List ThroughputBucket)
    (ht : p.throughputs = latest :: rest) :
    ∀ (svcs : List (String × List (String × List ℚ)))
      (retP retQ : List (String × List (String × ℚ)))
      (c : SamplingCache) (cs : List SamplingCache),
      ∃ r, calcSvcsAux p svcs (retP, retQ, c :: cs) = some r := by
  intro svcs
  induction svcs with
  | nil =>
    intro retP retQ c cs
    exact ⟨(retP, retQ, c :: cs), rfl⟩
  | cons head tail ih =>
    intro retP retQ c cs
    obtain ⟨r, hr, hrne⟩ := calcOpsAux_isSome p latest rest ht head.1 head.2 retP retQ c cs
    rcases r with ⟨retP', retQ', cache'⟩
    rcases cache' with _ | ⟨c', cs'⟩
    · exact absurd rfl hrne
    · obtain ⟨r', hr'⟩ := ih retP' retQ' c' cs'
      refine ⟨r', ?_⟩
      unfold calcSvcsAux
      rw [hr]
      exact hr'

/-- `calculateProbabilitiesAndQPS` never panics when the ring is nonempty:
the fresh status snapshot it prepends keeps the history nonempty. -/
theorem calculateProbabilitiesAndQPS_isSome (p : ProcState)
    (latest : ThroughputBucket) (rest : List ThroughputBucket)
    (ht : p.throughputs = latest :: rest) :
    ∃ r, calculateProbabilitiesAndQPS p = some r := by
  unfold calculateProbabilitiesAndQPS prependServiceCache serviceCacheSize
  rw [List.take_succ_cons]
  exact calcSvcsAux_isSome p latest rest ht (generateOperationQPS p) [] [] [] _

/-- After a prepend, the ring is a nonempty list whenever `1 ≤ buckets`. -/
theorem prependThroughputBucket_cons (p : ProcState) (b : ThroughputBucket)
    (hb : 1 ≤ p.buckets) :
    ∃ latest rest, (prependThroughputBucket p b).throughputs = latest :: rest := by
  unfold prependThroughputBucket
  dsimp only
  split_ifs with h
  · obtain ⟨m, hm⟩ : ∃ m, p.buckets = m + 1 := ⟨p.buckets - 1, by omega⟩
    rw [hm, List.take_succ_cons]
    exact ⟨b, _, rfl⟩
  · exact ⟨b, _, rfl⟩

/-- C10: any processor built by `NewProcessor` from a configuration with a
positive `CalculationInterval` has `buckets ≥ 1`, and for such a processor a
calculation tick never panics: the probability calculation (and with it the
unchecked `p.throughputs[0]` read in `calculateProbability`) runs only after
the same tick successfully fetched throughput and prepended a bucket, so the
ring is nonempty whenever `calculateProbability` executes. -/
theorem calculateProbability_ring_access_safe :
    (∀ (cfg : ProcessorConfig) (p : ProcState), NewProcessor cfg = .ok p →
       0 < cfg.calculationInterval → 1 ≤ p.buckets) ∧
    (∀ (p : ProcState) (fetchResult : Except Unit (List Throughput)) (startTime endTime : Int),
       1 ≤ p.buckets → runCalculationTick p fetchResult startTime endTime ≠ none) := by
  constructor
  · intro cfg p h hpos
    unfold NewProcessor at h
    split_ifs at h with h1 h2 h3 h4
    injection h with h'
    subst h'
    dsimp only
    have hle : cfg.calculationInterval ≤ cfg.lookbackInterval := not_lt.mp h1
    rw [Int.tdiv_eq_ediv (le_trans (le_of_lt hpos) hle) (le_of_lt hpos)]
    have hdiv : 1 ≤ cfg.lookbackInterval / cfg.calculationInterval := by
      rw [Int.le_ediv_iff_mul_le hpos]
      omega
    omega
  · intro p fetchResult startTime endTime hb
    cases fetchResult with
    | error e => simp [runCalculationTick]
    | ok throughput =>
      unfold runCalculationTick
      simp only []
      obtain ⟨latest, rest, hPrep⟩ := prependThroughputBucket_cons p
        { throughput := aggregateThroughput throughput
          interval := endTime - startTime
          endTime := endTime } hb
      split_ifs with hl
      · obtain ⟨r, hr⟩ := calculateProbabilitiesAndQPS_isSome _ latest rest hPrep
        rcases r with ⟨a, bq, c⟩
        rw [hr]
        simp
      · simp

/-- C10 witness: the `NewProcessor s1Config` state has `buckets ≥ 1`, and a
concrete leader tick on `s1Initial` does not panic. -/
theorem calculateProbability_ring_access_safe_witness :
    1 ≤ s1NewState.buckets ∧ runCalculationTick s1Initial (.ok [s1Row]) 0 second ≠ none :=
  ⟨calculateProbability_ring_access_safe.1 s1Config s1NewState rfl (by decide),
   calculateProbability_ring_access_safe.2 s1Initial (.ok [s1Row]) 0 second (by decide)⟩

end Adaptive
